import Mathlib

/-!
Verification of the parquet viewer preview core (src/main.rs).

We give a shallow embedding of the range fetcher (load_batches,
batches_to_rows, DataPreview.rows_for_range) and of the viewport controller
(PreviewView with load_visible_rows, update_rows_for_resize, scroll_view,
and the cell click handler from render_table), and prove the windowing
specification over it.

Modelling conventions:
- A cell value is either null or an already rendered canonical string
  (array_value_to_string is an external arrow collaborator; its output is
  the string carried by the value).
- A record batch is the list of its rows, each row the list of its cells;
  the column-major storage layout of arrow is irrelevant to the observable
  cell grid produced by the row-major iteration in batches_to_rows.
- The parquet reader is an external collaborator modelled as a function
  from (skip, take) to a list of record batches or an error. load_batches
  mirrors the source, including the limit-zero early return that happens
  before any storage access. pureReader is the healthy-file instance:
  skipping start rows and selecting limit rows of the file, as one batch.
- Pixel heights are modelled as exact rationals standing in for the f32
  pixel arithmetic of the source.
-/

/-- Model of an arrow cell value: null, or a non-null value carrying its
canonical human-readable rendering. -/
inductive CellValue where
  | null : CellValue
  | text : String → CellValue
deriving DecidableEq, Repr

/-- Model of an arrow RecordBatch: the list of its rows, each a list of cells. -/
abbrev RecordBatch := List (List CellValue)

/-- Error taxonomy of the viewer (ViewerError in the source). -/
inductive ViewerError where
  | openFailed : ViewerError
  | readFailed : ViewerError
  | formatFailed : ViewerError
deriving DecidableEq, Repr

/-- Model of the parquet record-batch reader: given (skip, take), yield the
selected record batches or fail. -/
abbrev Reader := Nat → Nat → Except ViewerError (List RecordBatch)

/-- Rendering of one cell, from the inner loop of batches_to_rows: a null
cell renders as the literal string "null", any other value via its
canonical stringification. -/
def renderCell : CellValue → String
  | CellValue.null => "null"
  | CellValue.text s => s

/-- Inner loop of batches_to_rows over the rows of one batch: push each
rendered row; as soon as the accumulated row count reaches row_limit,
return with the flag set (the early return in the source). -/
def batchRowsStep (limit : Nat) (acc : List (List String)) :
    List (List CellValue) → List (List String) × Bool
  | [] => (acc, false)
  | r :: rs =>
    let acc' := acc ++ [r.map renderCell]
    if limit ≤ acc'.length then (acc', true) else batchRowsStep limit acc' rs

/-- Outer loop of batches_to_rows over the batches; stops as soon as the
inner loop reported that the limit was reached. -/
def batchesLoop (limit : Nat) (acc : List (List String)) :
    List RecordBatch → List (List String)
  | [] => acc
  | b :: bs =>
    match batchRowsStep limit acc b with
    | (acc', true) => acc'
    | (acc', false) => batchesLoop limit acc' bs

/-- Translation of batches_to_rows: render the rows of the batches in order,
returning as soon as row_limit rows have been pushed. -/
def batches_to_rows (batches : List RecordBatch) (row_limit : Nat) :
    List (List String) :=
  batchesLoop row_limit [] batches

/-- Translation of load_batches: on limit == 0 return no batches before any
storage access; otherwise ask the reader for (skip start, select limit). -/
def load_batches (reader : Reader) (start limit : Nat) :
    Except ViewerError (List RecordBatch) :=
  if limit = 0 then Except.ok [] else reader start limit

/-- Composition of load_batches and batches_to_rows with a shared count, the
fetch pipeline used by rows_for_range and load_preview. -/
def fetch (reader : Reader) (start count : Nat) :
    Except ViewerError (List (List String)) :=
  match load_batches reader start count with
  | Except.ok batches => Except.ok (batches_to_rows batches count)
  | Except.error e => Except.error e

/-- Healthy-file reader: the parquet reader over a file whose rows are
given, honouring skip/select by slicing, delivered as a single batch. -/
def pureReader (rows : List (List CellValue)) : Reader :=
  fun start limit => Except.ok [(rows.drop start).take limit]

/-- Model of the DataPreview struct: file metadata plus the reader standing
in for re-opening the path on each fetch (rendering-only fields of the
source struct are omitted). -/
structure DataPreview where
  reader : Reader
  columns : List String
  row_count : Nat
  column_count : Nat

/-- Translation of DataPreview::rows_for_range: empty past the end,
otherwise fetch the available prefix of the requested range. -/
def DataPreview.rows_for_range (p : DataPreview) (start stop : Nat) :
    Except ViewerError (List (List String)) :=
  if p.row_count ≤ start then Except.ok []
  else
    let available := min (p.row_count - start) (stop - start)
    match load_batches p.reader start available with
    | Except.ok batches => Except.ok (batches_to_rows batches available)
    | Except.error e => Except.error e

example :
    batches_to_rows [[[CellValue.text "1", CellValue.null],
                      [CellValue.text "2", CellValue.text ""]]] 2
      = [["1", "null"], ["2", ""]] := by decide

example :
    batches_to_rows [[[CellValue.text "1"], [CellValue.text "2"],
                      [CellValue.text "3"]]] 2
      = [["1"], ["2"]] := by decide

example :
    (DataPreview.rows_for_range
      { reader := pureReader [[CellValue.text "a"], [CellValue.text "b"]],
        columns := ["c"], row_count := 2, column_count := 1 } 5 8)
      = Except.ok [] := rfl

/-- Fixed row height in pixels (ROW_HEIGHT in the source). -/
def ROW_HEIGHT : ℚ := 28

/-- Minimum table height in pixels (MIN_TABLE_HEIGHT in the source). -/
def MIN_TABLE_HEIGHT : ℚ := 200

/-- Vertical chrome around the table in pixels (TABLE_PADDING in the source). -/
def TABLE_PADDING : ℚ := 260

/-- Translation of rows_per_view: the page size for a given table height,
the floored height over row height, at least 1. -/
def rows_per_view (height : ℚ) : Nat := (max ⌊height / ROW_HEIGHT⌋ 1).toNat

/-- Translation of table_height_for_window: the window height minus the
chrome padding, at least the minimum table height. -/
def table_height_for_window (window_height : ℚ) : ℚ :=
  max (window_height - TABLE_PADDING) MIN_TABLE_HEIGHT

/-- Model of the PreviewView struct: the session data plus the mutable
viewport state (visible_range is split into its two endpoints). -/
structure PreviewView where
  preview : DataPreview
  visible_rows : List (List String)
  visible_range_start : Nat
  visible_range_end : Nat
  table_height : ℚ
  rows_per_view : Nat
  selected_cell : Option (Nat × Nat)

/-- Translation of PreviewView::load_visible_rows: on an empty file reset
the window to 0..0; otherwise clamp the start below row_count, derive the
page end, and replace the window on a successful fetch, keeping the
previous window untouched on a fetch error. -/
def load_visible_rows (v : PreviewView) (start : Nat) : PreviewView :=
  if v.preview.row_count = 0 then
    { v with visible_rows := [], visible_range_start := 0, visible_range_end := 0 }
  else
    let start' := min start (v.preview.row_count - 1)
    let stop := min (start' + v.rows_per_view) v.preview.row_count
    match v.preview.rows_for_range start' stop with
    | Except.ok rows =>
        { v with visible_range_start := start',
                 visible_range_end := start' + rows.length,
                 visible_rows := rows }
    | Except.error _ => v

/-- Translation of PreviewView::update_rows_for_resize: recompute the table
height and the page size from the new window height, then reload from the
current window start. -/
def update_rows_for_resize (v : PreviewView) (window_height : ℚ) : PreviewView :=
  let th := table_height_for_window window_height
  let v' := { v with table_height := th, rows_per_view := rows_per_view th }
  load_visible_rows v' v'.visible_range_start

/-- Clamp computation of PreviewView::scroll_view: add the signed delta to
the current start, clamp below by 0, then clamp above by the saturated
max_start, and convert back to an unsigned index. -/
def scrollTarget (row_count page current : Nat) (delta : Int) : Nat :=
  let max_start := max (row_count - page) 0
  let target0 : Int := (current : Int) + delta
  let target1 : Int := if target0 < 0 then 0 else target0
  let target2 : Int := if max_start < target1.toNat then (max_start : Int) else target1
  target2.toNat

/-- Translation of PreviewView::scroll_view: no-op on an empty file; clamp
the scrolled start and reload only when it differs from the current start. -/
def scroll_view (v : PreviewView) (delta_rows : Int) : PreviewView :=
  if v.preview.row_count = 0 then v
  else
    let target :=
      scrollTarget v.preview.row_count v.rows_per_view v.visible_range_start delta_rows
    if target ≠ v.visible_range_start then load_visible_rows v target else v

/-- Translation of the click listener in render_table: store the clicked
cell as (window start + row offset, column) in global row space. -/
def on_cell_click (v : PreviewView) (row_offset col : Nat) : PreviewView :=
  { v with selected_cell := some (v.visible_range_start + row_offset, col) }

/-- Translation of the view construction in launch_ui: an empty window at
0..0 with the page size derived from the initial table height, followed by
the initial load from row 0. -/
def initView (p : DataPreview) (window_height : ℚ) : PreviewView :=
  let th := table_height_for_window window_height
  load_visible_rows
    { preview := p, visible_rows := [], visible_range_start := 0,
      visible_range_end := 0, table_height := th,
      rows_per_view := rows_per_view th, selected_cell := none } 0

/-- Events driving the viewport controller after construction. -/
inductive ViewEvent where
  | scroll : Int → ViewEvent
  | resize : ℚ → ViewEvent

/-- Dispatch of one event to the controller. -/
def applyEvent (v : PreviewView) : ViewEvent → PreviewView
  | ViewEvent.scroll d => scroll_view v d
  | ViewEvent.resize h => update_rows_for_resize v h

/-- Serial dispatch of a sequence of events, the single-threaded event loop. -/
def applyEvents (v : PreviewView) (es : List ViewEvent) : PreviewView :=
  es.foldl applyEvent v

example : rows_per_view 240 = 8 := by norm_num [rows_per_view, ROW_HEIGHT]; rfl
example : rows_per_view 0 = 1 := by norm_num [rows_per_view, ROW_HEIGHT]
example : table_height_for_window 500 = 240 := by
  norm_num [table_height_for_window, TABLE_PADDING, MIN_TABLE_HEIGHT]
example : scrollTarget 10 3 0 (-5) = 0 := by decide
example : scrollTarget 10 3 5 100 = 7 := by decide

/-- Clamp of a signed candidate start into [0, max(0, row_count - page)],
the clamp the specification describes for Scroll. -/
def clampStart (row_count page : Nat) (candidate : Int) : Nat :=
  min candidate.toNat (row_count - page)

theorem one_le_rows_per_view (h : ℚ) : 1 ≤ rows_per_view h := by
  unfold rows_per_view
  have h1 : (1 : ℤ) ≤ max ⌊h / ROW_HEIGHT⌋ 1 := le_max_right _ _
  omega

theorem scrollTarget_eq_clampStart (row_count page current : Nat) (delta : Int) :
    scrollTarget row_count page current delta
      = clampStart row_count page ((current : Int) + delta) := by
  unfold scrollTarget clampStart
  by_cases h0 : (current : Int) + delta < 0
  · simp only [if_pos h0]
    split <;> omega
  · simp only [if_neg h0]
    split <;> omega

theorem batchRowsStep_eq (limit : Nat) :
    ∀ (rs : List (List CellValue)) (acc : List (List String)),
      acc.length < limit →
      batchRowsStep limit acc rs
        = (acc ++ (rs.map (List.map renderCell)).take (limit - acc.length),
           decide (limit ≤ acc.length + rs.length))
  | [], acc, h => by
    simp only [batchRowsStep, List.map_nil, List.take_nil, List.append_nil,
      List.length_nil, Nat.add_zero]
    have : ¬ limit ≤ acc.length := Nat.not_le.mpr h
    simp [this]
  | r :: rs, acc, h => by
    simp only [batchRowsStep]
    split
    · rename_i hle
      have hlen : (acc ++ [r.map renderCell]).length = acc.length + 1 := by simp
      rw [hlen] at hle
      have hlim : limit = acc.length + 1 := by omega
      have h1 : limit - acc.length = 1 := by omega
      have h2 : limit ≤ acc.length + (r :: rs).length := by simp; omega
      simp only [List.map_cons, h1, List.take_succ_cons, List.take_zero,
        decide_eq_true h2]
    · rename_i hgt
      have hlen : (acc ++ [r.map renderCell]).length = acc.length + 1 := by simp
      rw [hlen] at hgt
      have h' : (acc ++ [r.map renderCell]).length < limit := by
        rw [hlen]; omega
      rw [batchRowsStep_eq limit rs (acc ++ [r.map renderCell]) h']
      have h2 : limit - acc.length = (limit - (acc.length + 1)) + 1 := by omega
      have h3 : acc.length + 1 + rs.length = acc.length + (rs.length + 1) := by omega
      simp only [hlen, List.map_cons, h2, List.take_succ_cons, List.append_assoc,
        List.singleton_append, List.length_cons, h3]

theorem batchesLoop_eq (limit : Nat) :
    ∀ (bs : List RecordBatch) (acc : List (List String)),
      acc.length < limit →
      batchesLoop limit acc bs
        = acc ++ (bs.flatten.map (List.map renderCell)).take (limit - acc.length)
  | [], acc, _ => by
    simp [batchesLoop]
  | b :: bs, acc, h => by
    simp only [batchesLoop]
    rw [batchRowsStep_eq limit b acc h]
    by_cases hp : limit ≤ acc.length + b.length
    · simp only [decide_eq_true hp]
      simp only [List.flatten_cons, List.map_append,
        List.take_append_eq_append_take, List.length_map]
      have h0 : limit - acc.length - b.length = 0 := by omega
      rw [h0]
      simp
    · simp only [decide_eq_false (Nat.not_le.mpr (Nat.not_le.mp hp))]
      have hfull : (b.map (List.map renderCell)).length ≤ limit - acc.length := by
        simp; omega
      have h' : (acc ++ b.map (List.map renderCell)).length < limit := by
        simp; omega
      rw [List.take_of_length_le hfull]
      rw [batchesLoop_eq limit bs (acc ++ b.map (List.map renderCell)) h']
      have e1 : (acc ++ b.map (List.map renderCell)).length
          = acc.length + b.length := by simp
      rw [e1, List.flatten_cons, List.map_append,
        List.take_append_eq_append_take, List.length_map,
        List.take_of_length_le hfull]
      have e2 : limit - acc.length - b.length = limit - (acc.length + b.length) := by
        omega
      rw [e2, List.append_assoc]

theorem batches_to_rows_take (bs : List RecordBatch) (limit : Nat)
    (h : 1 ≤ limit) :
    batches_to_rows bs limit
      = (bs.flatten.map (List.map renderCell)).take limit := by
  unfold batches_to_rows
  rw [batchesLoop_eq limit bs [] (by simpa using h)]
  simp

theorem batches_to_rows_length (bs : List RecordBatch) (limit : Nat)
    (h : 1 ≤ limit) :
    (batches_to_rows bs limit).length = min limit bs.flatten.length := by
  rw [batches_to_rows_take bs limit h]
  simp only [List.length_take, List.length_map]

theorem batchRowsStep_mem (limit : Nat) :
    ∀ (rs : List (List CellValue)) (acc : List (List String))
      (row : List String), row ∈ (batchRowsStep limit acc rs).1 →
      row ∈ acc ∨ row ∈ rs.map (List.map renderCell)
  | [], _, _, h => Or.inl h
  | r :: rs, acc, row, h => by
    simp only [batchRowsStep] at h
    split at h
    · rcases List.mem_append.mp h with h1 | h1
      · exact Or.inl h1
      · have h2 : row = r.map renderCell := by simpa using h1
        exact Or.inr (by rw [List.map_cons, h2]; exact List.mem_cons_self _ _)
    · rcases batchRowsStep_mem limit rs (acc ++ [r.map renderCell]) row h with h1 | h1
      · rcases List.mem_append.mp h1 with h2 | h2
        · exact Or.inl h2
        · have h3 : row = r.map renderCell := by simpa using h2
          exact Or.inr (by rw [List.map_cons, h3]; exact List.mem_cons_self _ _)
      · exact Or.inr (by rw [List.map_cons]; exact List.mem_cons_of_mem _ h1)

theorem batchesLoop_mem (limit : Nat) :
    ∀ (bs : List RecordBatch) (acc : List (List String)) (row : List String),
      row ∈ batchesLoop limit acc bs →
      row ∈ acc ∨ row ∈ bs.flatten.map (List.map renderCell)
  | [], _, _, h => Or.inl h
  | b :: bs, acc, row, h => by
    simp only [batchesLoop] at h
    rcases hstep : batchRowsStep limit acc b with ⟨acc', flag⟩
    rw [hstep] at h
    cases flag with
    | true =>
      have h0 : row ∈ acc' := h
      have h1 := batchRowsStep_mem limit b acc row (by rw [hstep]; exact h0)
      rcases h1 with h2 | h2
      · exact Or.inl h2
      · refine Or.inr ?_
        rw [List.flatten_cons, List.map_append]
        exact List.mem_append.mpr (Or.inl h2)
    | false =>
      have h0 : row ∈ batchesLoop limit acc' bs := h
      rcases batchesLoop_mem limit bs acc' row h0 with h2 | h2
      · have h3 := batchRowsStep_mem limit b acc row (by rw [hstep]; exact h2)
        rcases h3 with h4 | h4
        · exact Or.inl h4
        · refine Or.inr ?_
          rw [List.flatten_cons, List.map_append]
          exact List.mem_append.mpr (Or.inl h4)
      · refine Or.inr ?_
        rw [List.flatten_cons, List.map_append]
        exact List.mem_append.mpr (Or.inr h2)

theorem batches_to_rows_mem (bs : List RecordBatch) (limit : Nat)
    (row : List String) (h : row ∈ batches_to_rows bs limit) :
    row ∈ bs.flatten.map (List.map renderCell) := by
  rcases batchesLoop_mem limit bs [] row h with h1 | h1
  · simp at h1
  · exact h1

theorem rows_for_range_pure (rows : List (List CellValue)) (p : DataPreview)
    (hr : p.reader = pureReader rows) (hc : p.row_count = rows.length)
    (start stop : Nat) :
    p.rows_for_range start stop
      = Except.ok (((rows.drop start).take
          (min (rows.length - start) (stop - start))).map (List.map renderCell)) := by
  unfold DataPreview.rows_for_range
  by_cases h0 : p.row_count ≤ start
  · rw [if_pos h0]
    have h0' : rows.length ≤ start := hc ▸ h0
    have hz : rows.length - start = 0 := Nat.sub_eq_zero_of_le h0'
    simp [hz]
  · rw [if_neg h0]
    rw [hc]
    by_cases haz : min (rows.length - start) (stop - start) = 0
    · rw [haz]
      simp only [load_batches, if_pos rfl]
      simp [batches_to_rows, batchesLoop]
    · have h1 : 1 ≤ min (rows.length - start) (stop - start) := by omega
      simp only [load_batches, if_neg haz, hr, pureReader]
      rw [batches_to_rows_take _ _ h1]
      have hsl : (((rows.drop start).take
            (min (rows.length - start) (stop - start))) :
              List (List CellValue)).length
          = min (rows.length - start) (stop - start) := by
        simp only [List.length_take, List.length_drop]
        omega
      have hfl : ([((rows.drop start).take
            (min (rows.length - start) (stop - start)))] :
              List RecordBatch).flatten
          = (rows.drop start).take (min (rows.length - start) (stop - start)) := by
        simp
      rw [hfl]
      rw [List.take_of_length_le (by rw [List.length_map, hsl])]

theorem load_visible_rows_preview (v : PreviewView) (s : Nat) :
    (load_visible_rows v s).preview = v.preview := by
  unfold load_visible_rows
  split
  · rfl
  · dsimp only
    split <;> rfl

theorem load_visible_rows_page (v : PreviewView) (s : Nat) :
    (load_visible_rows v s).rows_per_view = v.rows_per_view := by
  unfold load_visible_rows
  split
  · rfl
  · dsimp only
    split <;> rfl

theorem load_visible_rows_height (v : PreviewView) (s : Nat) :
    (load_visible_rows v s).table_height = v.table_height := by
  unfold load_visible_rows
  split
  · rfl
  · dsimp only
    split <;> rfl

theorem load_visible_rows_selected (v : PreviewView) (s : Nat) :
    (load_visible_rows v s).selected_cell = v.selected_cell := by
  unfold load_visible_rows
  split
  · rfl
  · dsimp only
    split <;> rfl

theorem scroll_view_preview (v : PreviewView) (d : Int) :
    (scroll_view v d).preview = v.preview := by
  unfold scroll_view
  split
  · rfl
  · dsimp only
    split
    · exact load_visible_rows_preview _ _
    · rfl

theorem scroll_view_page (v : PreviewView) (d : Int) :
    (scroll_view v d).rows_per_view = v.rows_per_view := by
  unfold scroll_view
  split
  · rfl
  · dsimp only
    split
    · exact load_visible_rows_page _ _
    · rfl

theorem scroll_view_selected (v : PreviewView) (d : Int) :
    (scroll_view v d).selected_cell = v.selected_cell := by
  unfold scroll_view
  split
  · rfl
  · dsimp only
    split
    · exact load_visible_rows_selected _ _
    · rfl

theorem update_rows_for_resize_preview (v : PreviewView) (wh : ℚ) :
    (update_rows_for_resize v wh).preview = v.preview := by
  unfold update_rows_for_resize
  rw [load_visible_rows_preview]

theorem update_rows_for_resize_page (v : PreviewView) (wh : ℚ) :
    (update_rows_for_resize v wh).rows_per_view
      = rows_per_view (table_height_for_window wh) := by
  unfold update_rows_for_resize
  rw [load_visible_rows_page]

theorem update_rows_for_resize_selected (v : PreviewView) (wh : ℚ) :
    (update_rows_for_resize v wh).selected_cell = v.selected_cell := by
  unfold update_rows_for_resize
  rw [load_visible_rows_selected]

theorem load_visible_rows_pure (rows : List (List CellValue)) (v : PreviewView)
    (s : Nat) (hr : v.preview.reader = pureReader rows)
    (hc : v.preview.row_count = rows.length) (hR : 0 < rows.length) :
    (load_visible_rows v s).visible_range_start = min s (rows.length - 1)
    ∧ (load_visible_rows v s).visible_range_end
        = min (min s (rows.length - 1) + v.rows_per_view) rows.length
    ∧ (load_visible_rows v s).visible_rows
        = ((rows.drop (min s (rows.length - 1))).take
            (min (min s (rows.length - 1) + v.rows_per_view) rows.length
              - min s (rows.length - 1))).map (List.map renderCell) := by
  unfold load_visible_rows
  rw [hc]
  rw [if_neg (by omega)]
  dsimp only
  rw [rows_for_range_pure rows v.preview hr hc]
  dsimp only
  refine ⟨rfl, ?_, ?_⟩
  · simp only [List.length_map, List.length_take, List.length_drop]
    omega
  · have harg : min (rows.length - min s (rows.length - 1))
        (min (min s (rows.length - 1) + v.rows_per_view) rows.length
          - min s (rows.length - 1))
        = min (min s (rows.length - 1) + v.rows_per_view) rows.length
          - min s (rows.length - 1) := by omega
    rw [harg]

theorem scroll_view_noop (v : PreviewView) (d : Int)
    (h : scrollTarget v.preview.row_count v.rows_per_view v.visible_range_start d
          = v.visible_range_start) :
    scroll_view v d = v := by
  unfold scroll_view
  split
  · rfl
  · dsimp only
    rw [if_neg (not_not_intro h)]

theorem scroll_view_start (rows : List (List CellValue)) (v : PreviewView)
    (d : Int) (hr : v.preview.reader = pureReader rows)
    (hc : v.preview.row_count = rows.length)
    (hP : 1 ≤ v.rows_per_view)
    (hs : v.visible_range_start = 0
          ∨ v.visible_range_start < v.preview.row_count) :
    (scroll_view v d).visible_range_start
      = clampStart v.preview.row_count v.rows_per_view
          ((v.visible_range_start : Int) + d) := by
  unfold scroll_view
  split
  · rename_i h0
    have hs0 : v.visible_range_start = 0 := by
      rcases hs with h | h
      · exact h
      · omega
    simp [clampStart, h0, hs0]
  · rename_i h0
    dsimp only
    rw [scrollTarget_eq_clampStart]
    by_cases ht : clampStart v.preview.row_count v.rows_per_view
        ((v.visible_range_start : Int) + d) = v.visible_range_start
    · rw [if_neg (not_not_intro ht)]
      exact ht.symm
    · rw [if_pos ht]
      have hR : 0 < rows.length := by omega
      have hcl := (load_visible_rows_pure rows v
        (clampStart v.preview.row_count v.rows_per_view
          ((v.visible_range_start : Int) + d)) hr hc hR).1
      rw [hcl]
      have hle : clampStart v.preview.row_count v.rows_per_view
          ((v.visible_range_start : Int) + d) ≤ rows.length - 1 := by
        simp only [clampStart, hc]
        omega
      omega

/-- Iterated application of Scroll(+1), the repeated scroll of the
windowing-correctness property. -/
def scrollRep (v : PreviewView) : Nat → PreviewView
  | 0 => v
  | Nat.succ n => scrollRep (scroll_view v 1) n

theorem scrollRep_spec (rows : List (List CellValue)) (n : Nat)
    (v : PreviewView) (hr : v.preview.reader = pureReader rows)
    (hc : v.preview.row_count = rows.length)
    (hP : 1 ≤ v.rows_per_view)
    (hS : v.visible_range_start ≤ rows.length - v.rows_per_view) :
    (scrollRep v n).visible_range_start
      = min (v.visible_range_start + n) (rows.length - v.rows_per_view) := by
  induction n generalizing v with
  | zero =>
    show v.visible_range_start = _
    omega
  | succ n ih =>
    show (scrollRep (scroll_view v 1) n).visible_range_start = _
    have hpre := scroll_view_preview v 1
    have hpg := scroll_view_page v 1
    have hs : v.visible_range_start = 0
        ∨ v.visible_range_start < v.preview.row_count := by
      rcases Nat.eq_zero_or_pos rows.length with h | h
      · left; omega
      · right; omega
    have hstart := scroll_view_start rows v 1 hr hc hP hs
    have hclamp : clampStart v.preview.row_count v.rows_per_view
        ((v.visible_range_start : Int) + 1)
          = min (v.visible_range_start + 1) (rows.length - v.rows_per_view) := by
      simp only [clampStart, hc]
      omega
    have ih' := ih (scroll_view v 1)
      (by rw [hpre]; exact hr) (by rw [hpre]; exact hc) (by rw [hpg]; exact hP)
      (by rw [hpg, hstart, hclamp]; omega)
    rw [ih', hpg, hstart, hclamp]
    omega

theorem load_visible_rows_zero (v : PreviewView) (s : Nat)
    (h : v.preview.row_count = 0) :
    (load_visible_rows v s).visible_range_start = 0
    ∧ (load_visible_rows v s).visible_range_end = 0
    ∧ (load_visible_rows v s).visible_rows = [] := by
  unfold load_visible_rows
  rw [if_pos h]
  exact ⟨rfl, rfl, rfl⟩

theorem load_visible_rows_fail (v : PreviewView) (s : Nat) (e : ViewerError)
    (hfail : ∀ a n : Nat, v.preview.reader a n = Except.error e)
    (hP : 1 ≤ v.rows_per_view) (hR : 0 < v.preview.row_count) :
    load_visible_rows v s = v := by
  unfold load_visible_rows
  rw [if_neg (by omega)]
  dsimp only
  have hres : v.preview.rows_for_range (min s (v.preview.row_count - 1))
      (min (min s (v.preview.row_count - 1) + v.rows_per_view)
        v.preview.row_count)
      = Except.error e := by
    unfold DataPreview.rows_for_range
    rw [if_neg (by omega)]
    dsimp only
    have hav : ¬ (min (v.preview.row_count - min s (v.preview.row_count - 1))
        (min (min s (v.preview.row_count - 1) + v.rows_per_view)
          v.preview.row_count - min s (v.preview.row_count - 1)) = 0) := by
      omega
    unfold load_batches
    rw [if_neg hav, hfail]
  rw [hres]

theorem applyEvents_selected (es : List ViewEvent) :
    ∀ v : PreviewView, (applyEvents v es).selected_cell = v.selected_cell := by
  induction es with
  | nil => intro v; rfl
  | cons ev es ih =>
    intro v
    show (applyEvents (applyEvent v ev) es).selected_cell = _
    rw [ih]
    cases ev with
    | scroll d => exact scroll_view_selected v d
    | resize h => exact update_rows_for_resize_selected v h

/-- Invariants of the Row Window, relative to the session metadata:
ordered range bounded by the row count, cached row count matching the
range length, and full-width rows. -/
def WindowInv (p : DataPreview) (v : PreviewView) : Prop :=
  v.visible_range_start ≤ v.visible_range_end
  ∧ v.visible_range_end ≤ p.row_count
  ∧ v.visible_rows.length = v.visible_range_end - v.visible_range_start
  ∧ ∀ row ∈ v.visible_rows, row.length = p.column_count

/-- Session built by load_preview over a healthy file with the given rows:
row and column counts reported by the metadata probe, reads served by the
parquet reader over those rows. -/
def mkPreview (rows : List (List CellValue)) (cols : List String)
    (ncols : Nat) : DataPreview :=
  { reader := pureReader rows, columns := cols,
    row_count := rows.length, column_count := ncols }

theorem load_visible_rows_inv (rows : List (List CellValue)) (ncols : Nat)
    (v : PreviewView) (s : Nat)
    (hr : v.preview.reader = pureReader rows)
    (hc : v.preview.row_count = rows.length)
    (hw : ∀ row ∈ rows, row.length = ncols)
    (hcols : v.preview.column_count = ncols) :
    WindowInv v.preview (load_visible_rows v s) := by
  rcases Nat.eq_zero_or_pos rows.length with hR | hR
  · obtain ⟨z1, z2, z3⟩ := load_visible_rows_zero v s (by omega)
    rw [WindowInv, z1, z2, z3]
    exact ⟨Nat.le_refl 0, Nat.zero_le _, rfl, by intro row h; cases h⟩
  · obtain ⟨h1, h2, h3⟩ := load_visible_rows_pure rows v s hr hc hR
    refine ⟨?_, ?_, ?_, ?_⟩
    · rw [h1, h2]; omega
    · rw [h2, hc]; omega
    · rw [h1, h2, h3]
      simp only [List.length_map, List.length_take, List.length_drop]
      omega
    · intro row hrow
      rw [h3] at hrow
      obtain ⟨src, hsrc, hmap⟩ := List.mem_map.mp hrow
      rw [← hmap, List.length_map, hcols]
      exact hw src (List.drop_subset _ _ (List.take_subset _ _ hsrc))

theorem applyEvent_inv (rows : List (List CellValue)) (ncols : Nat)
    (v : PreviewView) (ev : ViewEvent)
    (hr : v.preview.reader = pureReader rows)
    (hc : v.preview.row_count = rows.length)
    (hcols : v.preview.column_count = ncols)
    (hw : ∀ row ∈ rows, row.length = ncols)
    (hInv : WindowInv v.preview v) :
    WindowInv v.preview (applyEvent v ev) := by
  cases ev with
  | scroll d =>
    show WindowInv v.preview (scroll_view v d)
    unfold scroll_view
    split
    · exact hInv
    · dsimp only
      split
      · exact load_visible_rows_inv rows ncols v _ hr hc hw hcols
      · exact hInv
  | resize h =>
    show WindowInv v.preview (update_rows_for_resize v h)
    unfold update_rows_for_resize
    dsimp only
    exact load_visible_rows_inv rows ncols _ _ hr hc hw hcols

theorem applyEvents_inv (rows : List (List CellValue)) (ncols : Nat)
    (es : List ViewEvent) :
    ∀ v : PreviewView,
      v.preview.reader = pureReader rows →
      v.preview.row_count = rows.length →
      v.preview.column_count = ncols →
      (∀ row ∈ rows, row.length = ncols) →
      WindowInv v.preview v →
      WindowInv v.preview (applyEvents v es)
      ∧ (applyEvents v es).preview = v.preview := by
  induction es with
  | nil => intro v _ _ _ _ h; exact ⟨h, rfl⟩
  | cons ev es ih =>
    intro v hr hc hcols hw hInv
    show WindowInv v.preview (applyEvents (applyEvent v ev) es) ∧ _
    have hpe : (applyEvent v ev).preview = v.preview := by
      cases ev with
      | scroll d => exact scroll_view_preview v d
      | resize h => exact update_rows_for_resize_preview v h
    have hInv' : WindowInv (applyEvent v ev).preview (applyEvent v ev) := by
      rw [hpe]
      exact applyEvent_inv rows ncols v ev hr hc hcols hw hInv
    obtain ⟨hi, hp⟩ := ih (applyEvent v ev) (by rw [hpe]; exact hr)
      (by rw [hpe]; exact hc) (by rw [hpe]; exact hcols) hw hInv'
    rw [hpe] at hi hp
    exact ⟨hi, hp⟩

/-- Sample file contents used by the closed instances below: three rows of
two rendered columns. -/
def exRows : List (List CellValue) :=
  [[CellValue.text "0", CellValue.text "name-0"],
   [CellValue.text "1", CellValue.text "name-1"],
   [CellValue.text "2", CellValue.text "name-2"]]

/-- Sample session over exRows. -/
def exPreview : DataPreview :=
  { reader := pureReader exRows, columns := ["id", "name"],
    row_count := 3, column_count := 2 }

/-- Sample controller state over exPreview: window 0..2 with a two-row page. -/
def exView : PreviewView :=
  { preview := exPreview,
    visible_rows := [["0", "name-0"], ["1", "name-1"]],
    visible_range_start := 0, visible_range_end := 2, table_height := 240,
    rows_per_view := 2, selected_cell := none }

/-- Claim C1: a Scroll(delta_rows) event moves the window start to
clamp(start + delta, 0, max(0, total_row_count - page_size)); when that
candidate equals the current start no fetch is issued and the state is
unchanged; and total_row_count repeated Scroll(+1) events from start 0
leave the start exactly at max(0, total_row_count - page_size), never
above it. -/
theorem scroll_clamp_and_saturate (rows : List (List CellValue))
    (v : PreviewView) (d : Int)
    (hr : v.preview.reader = pureReader rows)
    (hc : v.preview.row_count = rows.length)
    (hP : 1 ≤ v.rows_per_view)
    (hs : v.visible_range_start = 0
          ∨ v.visible_range_start < v.preview.row_count) :
    ((scroll_view v d).visible_range_start
        = clampStart v.preview.row_count v.rows_per_view
            ((v.visible_range_start : Int) + d))
    ∧ (clampStart v.preview.row_count v.rows_per_view
          ((v.visible_range_start : Int) + d) = v.visible_range_start →
        scroll_view v d = v)
    ∧ (v.visible_range_start = 0 →
        (scrollRep v v.preview.row_count).visible_range_start
            = v.preview.row_count - v.rows_per_view
        ∧ ∀ k : Nat, (scrollRep v k).visible_range_start
            ≤ v.preview.row_count - v.rows_per_view) := by
  refine ⟨scroll_view_start rows v d hr hc hP hs, ?_, ?_⟩
  · intro h
    exact scroll_view_noop v d (by rw [scrollTarget_eq_clampStart]; exact h)
  · intro h0
    have hS : v.visible_range_start ≤ rows.length - v.rows_per_view := by
      omega
    constructor
    · have hrep := scrollRep_spec rows v.preview.row_count v hr hc hP hS
      rw [hrep, h0, hc]
      omega
    · intro k
      have hrep := scrollRep_spec rows k v hr hc hP hS
      rw [hrep, hc]
      omega

theorem scroll_clamp_and_saturate_witness :
    (scroll_view exView 1).visible_range_start
      = clampStart exView.preview.row_count exView.rows_per_view
          ((exView.visible_range_start : Int) + 1) :=
  (scroll_clamp_and_saturate exRows exView 1 rfl rfl (by decide)
    (Or.inl rfl)).1

/-- Claim C2: a Resize recomputes page_size as
max(1, floor(new_height / row_height)) from the reported table height, and
the re-derived window keeps the previous start (never reset to 0) with its
end clamped so it does not pass total_row_count. -/
theorem resize_preserves_position (rows : List (List CellValue))
    (v : PreviewView) (wh : ℚ)
    (hr : v.preview.reader = pureReader rows)
    (hc : v.preview.row_count = rows.length)
    (hs : v.visible_range_start = 0
          ∨ v.visible_range_start < v.preview.row_count) :
    ((update_rows_for_resize v wh).rows_per_view
        = (max ⌊table_height_for_window wh / ROW_HEIGHT⌋ 1).toNat)
    ∧ ((update_rows_for_resize v wh).visible_range_start
        = v.visible_range_start)
    ∧ ((update_rows_for_resize v wh).visible_range_end
        = min (v.visible_range_start
                + (update_rows_for_resize v wh).rows_per_view)
              v.preview.row_count) := by
  have hpage := update_rows_for_resize_page v wh
  have hupd : update_rows_for_resize v wh
      = load_visible_rows
          { v with table_height := table_height_for_window wh,
                   rows_per_view := rows_per_view (table_height_for_window wh) }
          v.visible_range_start := rfl
  refine ⟨by rw [hpage]; rfl, ?_, ?_⟩
  · rw [hupd]
    rcases Nat.eq_zero_or_pos rows.length with hR | hR
    · obtain ⟨z1, _, _⟩ := load_visible_rows_zero
        { v with table_height := table_height_for_window wh,
                 rows_per_view := rows_per_view (table_height_for_window wh) }
        v.visible_range_start (by show v.preview.row_count = 0; omega)
      rw [z1]
      rcases hs with h | h
      · omega
      · omega
    · obtain ⟨h1, _, _⟩ := load_visible_rows_pure rows
        { v with table_height := table_height_for_window wh,
                 rows_per_view := rows_per_view (table_height_for_window wh) }
        v.visible_range_start hr hc hR
      rw [h1]
      rcases hs with h | h
      · omega
      · have h' : v.visible_range_start < rows.length := by omega
        omega
  · rw [hpage, hupd]
    rcases Nat.eq_zero_or_pos rows.length with hR | hR
    · obtain ⟨_, z2, _⟩ := load_visible_rows_zero
        { v with table_height := table_height_for_window wh,
                 rows_per_view := rows_per_view (table_height_for_window wh) }
        v.visible_range_start (by show v.preview.row_count = 0; omega)
      rw [z2]
      have hs0 : v.visible_range_start = 0 := by
        rcases hs with h | h
        · exact h
        · omega
      rw [hs0, hc]
      omega
    · obtain ⟨_, h2, _⟩ := load_visible_rows_pure rows
        { v with table_height := table_height_for_window wh,
                 rows_per_view := rows_per_view (table_height_for_window wh) }
        v.visible_range_start hr hc hR
      rw [h2, hc]
      have h' : v.visible_range_start < rows.length := by
        rcases hs with h | h
        · omega
        · omega
      have hm : min v.visible_range_start (rows.length - 1)
          = v.visible_range_start := by omega
      rw [hm]

theorem resize_preserves_position_witness :
    (update_rows_for_resize exView 500).visible_range_start
      = exView.visible_range_start :=
  (resize_preserves_position exRows exView 500 rfl rfl (Or.inl rfl)).2.1

/-- Reader that fails on every request. -/
def failReader : Reader := fun _ _ => Except.error ViewerError.readFailed

/-- Session over a broken storage path. -/
def failPreview : DataPreview :=
  { reader := failReader, columns := ["id"], row_count := 3, column_count := 1 }

/-- Controller state whose session reader always fails, used to witness the
failure policy. -/
def failView : PreviewView :=
  { preview := failPreview,
    visible_rows := [["0"], ["1"]], visible_range_start := 0,
    visible_range_end := 2, table_height := 240, rows_per_view := 2,
    selected_cell := none }

/-- Claim C3: when the row fetch issued by a Scroll or a Resize fails, the
displayed window (visible_range and visible_rows) is exactly what it was
before the event; both transitions are total, so the controller does not
crash. -/
theorem fetch_failure_keeps_window (v : PreviewView) (d : Int) (wh : ℚ)
    (e : ViewerError)
    (hfail : ∀ s n : Nat, v.preview.reader s n = Except.error e)
    (hP : 1 ≤ v.rows_per_view)
    (hR : 0 < v.preview.row_count) :
    ((scroll_view v d).visible_rows = v.visible_rows
      ∧ (scroll_view v d).visible_range_start = v.visible_range_start
      ∧ (scroll_view v d).visible_range_end = v.visible_range_end)
    ∧ ((update_rows_for_resize v wh).visible_rows = v.visible_rows
      ∧ (update_rows_for_resize v wh).visible_range_start
          = v.visible_range_start
      ∧ (update_rows_for_resize v wh).visible_range_end
          = v.visible_range_end) := by
  have hscroll : scroll_view v d = v := by
    unfold scroll_view
    rw [if_neg (by omega)]
    dsimp only
    split
    · exact load_visible_rows_fail v _ e hfail hP hR
    · rfl
  have hresize : update_rows_for_resize v wh
      = { v with table_height := table_height_for_window wh,
                 rows_per_view := rows_per_view (table_height_for_window wh) } := by
    unfold update_rows_for_resize
    dsimp only
    exact load_visible_rows_fail _ _ e hfail
      (one_le_rows_per_view (table_height_for_window wh)) hR
  rw [hscroll, hresize]
  exact ⟨⟨rfl, rfl, rfl⟩, rfl, rfl, rfl⟩

theorem fetch_failure_keeps_window_witness :
    (scroll_view failView 1).visible_rows = failView.visible_rows :=
  (fetch_failure_keeps_window failView 1 500 ViewerError.readFailed
    (fun _ _ => rfl) (by decide) (by decide)).1.1

/-- Claim C4: a range request whose start is at or beyond total_row_count
succeeds with an empty row list, never an error. -/
theorem rows_for_range_past_end (p : DataPreview) (start stop : Nat)
    (h : p.row_count ≤ start) :
    p.rows_for_range start stop = Except.ok [] := by
  unfold DataPreview.rows_for_range
  rw [if_pos h]

theorem rows_for_range_past_end_witness :
    exPreview.rows_for_range 5 8 = Except.ok [] :=
  rows_for_range_past_end exPreview 5 8 (by decide)

/-- Claim C5: a fetch of (start, count) never yields more than count rows,
whatever batches the storage returns; and as soon as at least one row is
requested, the successful result is exactly the first count rendered rows
of the batch stream, truncating overshooting batches at the quota and
consuming nothing past it. -/
theorem fetch_truncates (reader : Reader) (start count : Nat)
    (out : List (List String))
    (h : fetch reader start count = Except.ok out) :
    out.length ≤ count
    ∧ (∀ bs : List RecordBatch, reader start count = Except.ok bs →
        1 ≤ count →
        out = (bs.flatten.map (List.map renderCell)).take count) := by
  by_cases h0 : count = 0
  · subst h0
    have hout : out = [] := by
      unfold fetch load_batches at h
      rw [if_pos rfl] at h
      exact (Except.ok.inj h).symm
    constructor
    · rw [hout]
      exact Nat.le_refl 0
    · intro bs _ h1
      omega
  · cases hread : reader start count with
    | ok bs =>
      have hout : out = batches_to_rows bs count := by
        unfold fetch load_batches at h
        rw [if_neg h0, hread] at h
        exact (Except.ok.inj h).symm
      constructor
      · rw [hout, batches_to_rows_length bs count (by omega)]
        omega
      · intro bs' hbs' h1
        have hbs : bs = bs' := Except.ok.inj hbs'
        rw [hout, ← hbs, batches_to_rows_take bs count h1]
    | error e =>
      exfalso
      unfold fetch load_batches at h
      rw [if_neg h0, hread] at h
      exact Except.noConfusion h

/-- Reader whose single batch overshoots any requested count. -/
def overReader : Reader := fun _ _ =>
  Except.ok [[[CellValue.text "a"], [CellValue.text "b"], [CellValue.text "c"]]]

theorem fetch_truncates_witness :
    fetch overReader 0 2 = Except.ok [["a"], ["b"]]
    ∧ ([["a"], ["b"]] : List (List String)).length ≤ 2 :=
  ⟨rfl, (fetch_truncates overReader 0 2 [["a"], ["b"]] rfl).1⟩

/-- Claim C6: every row produced by batches_to_rows is the cell-wise
rendering of a storage row; the rendering maps a null cell to the literal
string "null" and a non-null value to its canonical string, and the null
rendering differs from the rendering of an empty string. -/
theorem cell_rendering (bs : List RecordBatch) (limit : Nat)
    (row : List String) (h : row ∈ batches_to_rows bs limit) :
    row ∈ bs.flatten.map (List.map renderCell)
    ∧ renderCell CellValue.null = "null"
    ∧ (∀ s : String, renderCell (CellValue.text s) = s)
    ∧ renderCell CellValue.null ≠ renderCell (CellValue.text "") :=
  ⟨batches_to_rows_mem bs limit row h, rfl, fun _ => rfl, by decide⟩

theorem cell_rendering_witness :
    ["1", "null"] ∈ ([[[CellValue.text "1", CellValue.null]]] :
        List RecordBatch).flatten.map (List.map renderCell) :=
  (cell_rendering [[[CellValue.text "1", CellValue.null]]] 5
    ["1", "null"] (by decide)).1

/-- Claim C7: in every state reachable by the initial load followed by any
sequence of scroll and resize events over a healthy file, the Row Window
invariants hold: ordered range bounded by total_row_count, cached row
count equal to the range length, and every cached row as wide as the
probed column count. -/
theorem window_invariants (rows : List (List CellValue)) (cols : List String)
    (ncols : Nat) (wh : ℚ) (es : List ViewEvent)
    (hw : ∀ row ∈ rows, row.length = ncols) :
    WindowInv (mkPreview rows cols ncols)
      (applyEvents (initView (mkPreview rows cols ncols) wh) es) := by
  have hpre0 : (initView (mkPreview rows cols ncols) wh).preview
      = mkPreview rows cols ncols := by
    unfold initView
    exact load_visible_rows_preview _ _
  have h0 : WindowInv (mkPreview rows cols ncols)
      (initView (mkPreview rows cols ncols) wh) := by
    unfold initView
    exact load_visible_rows_inv rows ncols _ 0 rfl rfl hw rfl
  obtain ⟨hi, _⟩ := applyEvents_inv rows ncols es
    (initView (mkPreview rows cols ncols) wh)
    (by rw [hpre0]; rfl) (by rw [hpre0]; rfl) (by rw [hpre0]; rfl) hw
    (by rw [hpre0]; exact h0)
  rw [hpre0] at hi
  exact hi

theorem window_invariants_witness :
    WindowInv (mkPreview exRows ["id", "name"] 2)
      (applyEvents (initView (mkPreview exRows ["id", "name"] 2) 500)
        [ViewEvent.scroll 1]) :=
  window_invariants exRows ["id", "name"] 2 500 [ViewEvent.scroll 1]
    (by decide)

/-- Claim C8: clicking a cell at window offset (r, c) stores the selection
as (window start + r, c) in global row space, and every subsequent sequence
of scroll and resize events leaves the selection untouched, whether or not
the selected row stays in view. -/
theorem selection_global_persistent (v : PreviewView) (r c : Nat)
    (es : List ViewEvent) :
    (on_cell_click v r c).selected_cell
        = some (v.visible_range_start + r, c)
    ∧ (applyEvents (on_cell_click v r c) es).selected_cell
        = some (v.visible_range_start + r, c) := by
  refine ⟨rfl, ?_⟩
  rw [applyEvents_selected es (on_cell_click v r c)]
  rfl

/-- Claim C9: a fetch with count 0 succeeds with an empty result and does
not touch storage: load_batches returns before consulting the reader, so
any two readers give the same empty answer. -/
theorem fetch_zero_count (r1 r2 : Reader) (start : Nat) :
    load_batches r1 start 0 = Except.ok []
    ∧ fetch r1 start 0 = Except.ok []
    ∧ load_batches r1 start 0 = load_batches r2 start 0 :=
  ⟨rfl, rfl, rfl⟩

/-- Claim C10: rows_for_range is total on degenerate ranges: whenever
stop ≤ start (inverted ranges such as 5..2 included) the saturating
subtraction yields a zero length and the call succeeds with an empty
result. -/
theorem rows_for_range_degenerate (p : DataPreview) (start stop : Nat)
    (h : stop ≤ start) :
    p.rows_for_range start stop = Except.ok [] := by
  unfold DataPreview.rows_for_range
  split
  · rfl
  · dsimp only
    have hz : min (p.row_count - start) (stop - start) = 0 := by omega
    rw [hz]
    rfl

theorem rows_for_range_degenerate_witness :
    exPreview.rows_for_range 2 1 = Except.ok [] :=
  rows_for_range_degenerate exPreview 2 1 (by decide)
